import Mathlib

/-!
Verification of the `progress-timer` terminal countdown timer
(`src/timer.go`) against its natural-language specification.

The Go program is a bubbletea application.  Its core — the state machine
(`Update`), the duration formatter (`formatDuration`) and the progress
fraction computed in `View` — is embedded below as executable Lean
definitions.  Machine integers are modelled as `Int` with explicit wrapping
where 64-bit overflow matters (Go's `int` and `time.Duration` are both
64-bit two's-complement on the standard platforms).  Durations are counted
in nanoseconds, exactly as Go's `time.Duration` does.

External collaborators (the bubbletea event loop, the bubbles textinput
widget, lipgloss styling) are modelled only through the narrow behaviour
the core observes: the textinput widget appends printable characters up to
the configured `CharLimit = 5` and deletes on backspace; commands returned
by `Update` are represented by the `Cmd` type.
-/

namespace ProgressTimer

/-- Go `unicode.IsSpace` (as used by `strings.TrimSpace`): the white space
code points, written by their numeric values.  Covers the Latin-1 fast
path (`\t \n \v \f \r` space, U+0085, U+00A0) and the Unicode `White_Space`
code points above Latin-1. -/
def isGoSpace (c : Char) : Bool :=
  (9 ≤ c.toNat && c.toNat ≤ 13) || c.toNat = 32 || c.toNat = 133 || c.toNat = 160 ||
  c.toNat = 5760 || (8192 ≤ c.toNat && c.toNat ≤ 8202) || c.toNat = 8232 ||
  c.toNat = 8233 || c.toNat = 8239 || c.toNat = 8287 || c.toNat = 12288

/-- ASCII decimal digit (code points 48–57), as accepted by `strconv.Atoi`. -/
def isDigitChar (c : Char) : Bool :=
  48 ≤ c.toNat && c.toNat ≤ 57

/-- Drop leading then trailing characters satisfying `isGoSpace`:
the list-level core of Go `strings.TrimSpace`. -/
def trimData (l : List Char) : List Char :=
  ((l.dropWhile isGoSpace).reverse.dropWhile isGoSpace).reverse

/-- Go `strings.TrimSpace` (src/timer.go line 89 calls it on the input
buffer before parsing). -/
def trimSpace (s : String) : String :=
  ⟨trimData s.data⟩

/-- Numeric value of a list of ASCII digit characters, most significant
first — the accumulation loop inside `strconv.ParseUint`. -/
def digitsVal (l : List Char) : ℕ :=
  l.foldl (fun a c => 10 * a + (c.toNat - 48)) 0

/-- Parse a non-empty all-digit character list to its numeric value;
`none` on an empty list or any non-digit (`strconv.ParseUint`, base 10,
before the range check). -/
def parseDecimalNat (l : List Char) : Option ℕ :=
  if l.isEmpty || !(l.all isDigitChar) then none else some (digitsVal l)

/-- Go `strconv.Atoi` (= `ParseInt(s, 10, 0)` with 64-bit `int`):
an optional leading sign, one or more ASCII digits, nothing else, and the
value must fit in `int64` (`≤ 2^63 - 1` for non-negative, `≥ -2^63` for
negative).  Out-of-range input is an error (`ErrRange`), modelled `none`. -/
def Atoi (s : String) : Option ℤ :=
  match s.data with
  | [] => none
  | c :: rest =>
    if c = '+' then
      (parseDecimalNat rest).bind
        (fun v => if v ≤ 9223372036854775807 then some (v : ℤ) else none)
    else if c = '-' then
      (parseDecimalNat rest).bind
        (fun v => if v ≤ 9223372036854775808 then some (-(v : ℤ)) else none)
    else
      (parseDecimalNat (c :: rest)).bind
        (fun v => if v ≤ 9223372036854775807 then some (v : ℤ) else none)

/-- Reduce an unbounded integer to the `int64` value with the same
two's-complement representation (Go arithmetic on `time.Duration` wraps
silently on overflow). -/
def toInt64 (z : ℤ) : ℤ :=
  (z + 9223372036854775808) % 18446744073709551616 - 9223372036854775808

/-- Go `inputState` (src/timer.go lines 16–21). -/
inductive InputState where
  | inputtingTime
  | running
deriving DecidableEq, Repr

/-- The fields of the Go `model` struct the core logic reads and writes
(src/timer.go lines 23–31).  `value` is `textInput.Value()`, the raw text
in the input widget; `duration` and `timeRemaining` are `time.Duration`
values in nanoseconds (int64); `err` is the validation error string
(empty = no error).  The `progress.Model` field holds only styling
configuration and is omitted. -/
structure Model where
  value : String
  state : InputState
  duration : ℤ
  timeRemaining : ℤ
  done : Bool
  err : String
deriving DecidableEq, Repr

/-- The events `Update` dispatches on: the key types handled by the inner
switch (src/timer.go lines 84–101), printable-character and backspace keys
that fall through to the textinput widget, and `tickMsg`. -/
inductive Msg where
  | keyCtrlC
  | keyEsc
  | keyEnter
  | keyRunes (c : Char)
  | keyBackspace
  | tickMsg
deriving DecidableEq, Repr

/-- Follow-up commands returned by `Update`: `none` (`nil`), `quit`
(`tea.Quit`), `tick ns` (`tea.Tick` with the given interval in
nanoseconds), and the opaque command returned by the textinput widget. -/
inductive Cmd where
  | none
  | quit
  | tick (intervalNs : ℤ)
  | textInputCmd
deriving DecidableEq, Repr

/-- `initialModel` (src/timer.go lines 44–63): `AwaitingInput` phase with
an empty buffer.  `duration`, `timeRemaining`, `done` and `err` are not
assigned and therefore carry Go's zero values. -/
def initialModel : Model :=
  { value := "", state := InputState.inputtingTime, duration := 0,
    timeRemaining := 0, done := false, err := "" }

/-- `tickEverySecond` (src/timer.go lines 73–77): a `tea.Tick` command
with interval `time.Second` = 10^9 ns. -/
def tickEverySecond : Cmd :=
  Cmd.tick 1000000000

/-- The bubbles textinput widget's reaction to a printable character while
focused: append the character unless the rune count has reached
`CharLimit`, which `initialModel` sets to 5 (src/timer.go line 48).  The
widget is an external collaborator; only this observable effect on
`Value()` is modelled. -/
def textInputInsert (s : String) (c : Char) : String :=
  if s.length < 5 then s.push c else s

/-- The bubbles textinput widget's reaction to backspace while focused
(cursor at the end): delete the last character. -/
def textInputBackspace (s : String) : String :=
  ⟨s.data.dropLast⟩

/-- `model.Update` (src/timer.go lines 79–120), the state-machine
transition function, returning the new model and the follow-up command.
Branch for branch:
* `KeyCtrlC`, `KeyEsc` → `return m, tea.Quit`;
* `KeyEnter` while `inputtingTime` → trim the buffer, `strconv.Atoi`;
  on error or a non-positive value set `m.err` and stop; otherwise set
  `duration = minutes * time.Minute` (int64 arithmetic, hence `toInt64`
  of the product with 6·10^10 ns), `timeRemaining = duration`, move to
  `running`, clear `err`;
* `tickMsg` → if `running` and `timeRemaining > 0`, subtract one second
  and clamp at zero, setting `done` when zero is reached; in every case
  return `tickEverySecond()`;
* any other key → forwarded to the textinput widget when
  `inputtingTime` (which also returns the widget's command), otherwise
  `return m, nil`. -/
def Update (m : Model) (msg : Msg) : Model × Cmd :=
  match msg with
  | Msg.keyCtrlC => (m, Cmd.quit)
  | Msg.keyEsc => (m, Cmd.quit)
  | Msg.keyEnter =>
    match m.state with
    | InputState.inputtingTime =>
      match Atoi (trimSpace m.value) with
      | Option.none => ({ m with err := "Please enter a valid positive number" }, Cmd.none)
      | Option.some minutes =>
        if minutes ≤ 0 then
          ({ m with err := "Please enter a valid positive number" }, Cmd.none)
        else
          ({ m with duration := toInt64 (minutes * 60000000000),
                    timeRemaining := toInt64 (minutes * 60000000000),
                    state := InputState.running,
                    err := "" }, Cmd.none)
    | InputState.running => (m, Cmd.none)
  | Msg.keyRunes c =>
    match m.state with
    | InputState.inputtingTime =>
      ({ m with value := textInputInsert m.value c }, Cmd.textInputCmd)
    | InputState.running => (m, Cmd.none)
  | Msg.keyBackspace =>
    match m.state with
    | InputState.inputtingTime =>
      ({ m with value := textInputBackspace m.value }, Cmd.textInputCmd)
    | InputState.running => (m, Cmd.none)
  | Msg.tickMsg =>
    match m.state with
    | InputState.running =>
      if m.timeRemaining > 0 then
        if m.timeRemaining - 1000000000 ≤ 0 then
          ({ m with timeRemaining := 0, done := true }, tickEverySecond)
        else
          ({ m with timeRemaining := m.timeRemaining - 1000000000 }, tickEverySecond)
      else (m, tickEverySecond)
    | InputState.inputtingTime => (m, tickEverySecond)

/-- Go `time.Duration.Round(time.Second)` on a non-negative duration in
nanoseconds: round to the nearest multiple of 10^9, halves away from
zero.  (The Go stdlib's overflow clamp for results beyond int64 range is
outside the non-negative in-range domain used here.) -/
def roundSecond (d : ℕ) : ℕ :=
  if 2 * (d % 1000000000) < 1000000000 then d - d % 1000000000
  else d - d % 1000000000 + 1000000000

/-- Fuel-driven most-significant-first decimal digit list of a natural
number; `fuel` bounds the recursion depth and any `fuel > log10 n` gives
the standard numeral. -/
def decimalDigits : ℕ → ℕ → List Char
  | 0, _ => []
  | fuel + 1, n =>
    if n < 10 then [Char.ofNat (48 + n)]
    else decimalDigits fuel (n / 10) ++ [Char.ofNat (48 + n % 10)]

/-- The standard decimal string of a natural number (the output of Go's
`%d` / `%02d` verbs for values ≥ 10 and the digit part below 10). -/
def decimalRepr (n : ℕ) : String :=
  ⟨decimalDigits (n + 1) n⟩

/-- Go's `%02d` verb on a non-negative value: the decimal string,
left-padded with `0` to width two (wider values are printed in full). -/
def pad2 (n : ℕ) : String :=
  if n < 10 then "0" ++ decimalRepr n else decimalRepr n

/-- `formatDuration` (src/timer.go lines 122–134) on the non-negative
domain (every call site passes a non-negative duration): round to the
second, split off hours, minutes and seconds by the successive
divide-and-subtract steps of the source, and print `HH:MM:SS` when the
hour component is positive, `MM:SS` otherwise.  The argument is in
nanoseconds, as `time.Duration` is. -/
def formatDuration (dIn : ℕ) : String :=
  let d0 := roundSecond dIn
  let h := d0 / 3600000000000
  let d1 := d0 - h * 3600000000000
  let m := d1 / 60000000000
  let d2 := d1 - m * 60000000000
  let s := d2 / 1000000000
  if h > 0 then pad2 h ++ ":" ++ pad2 m ++ ":" ++ pad2 s
  else pad2 m ++ ":" ++ pad2 s

/-- Go `float64` division of two integer-valued operands, as a partial
exact quotient: for a nonzero divisor the value is the exact rational
quotient (IEEE rounding is irrelevant to the claims, which concern only
the zero-divisor case); for divisor zero the IEEE result is NaN or ±Inf —
never a real number — modelled as `none`. -/
def float64Div (a b : ℤ) : Option ℚ :=
  if b = 0 then none else some ((a : ℚ) / (b : ℚ))

/-- The progress fraction computed by `View` while `running`
(src/timer.go lines 151–152): `elapsed := m.duration - m.timeRemaining;
percentComplete := float64(elapsed) / float64(m.duration)`.  The source
performs this division unconditionally — there is no zero-divisor branch;
the `none` case of `float64Div` is the model of the division being
executed with divisor zero. -/
def percentComplete (m : Model) : Option ℚ :=
  float64Div (m.duration - m.timeRemaining) m.duration

/-- The submit validation test of the Enter branch, as a predicate:
`strconv.Atoi(strings.TrimSpace(buffer))` succeeds with a positive
value. -/
def validSubmission (s : String) : Bool :=
  match Atoi (trimSpace s) with
  | Option.none => false
  | Option.some v => decide (0 < v)

/-- The model after `k` tick events. -/
def applyTicks : ℕ → Model → Model
  | 0, m => m
  | k + 1, m => (Update (applyTicks k m) Msg.tickMsg).1

/-- States reachable from `initialModel` under any sequence of modelled
events. -/
inductive Reachable : Model → Prop where
  | init : Reachable initialModel
  | step (m : Model) (msg : Msg) : Reachable m → Reachable (Update m msg).1

/-! ### Decimal digit and numeral lemmas -/

lemma digit_toNat_ofNat {k : ℕ} (hk : k < 10) : (Char.ofNat (48 + k)).toNat = 48 + k := by
  interval_cases k <;> decide

lemma isGoSpace_eq_false_of_digit {c : Char} (h1 : 48 ≤ c.toNat) (h2 : c.toNat ≤ 57) :
    isGoSpace c = false := by
  simp only [isGoSpace, Bool.or_eq_false_iff, Bool.and_eq_false_iff,
    decide_eq_false_iff_not]
  omega

lemma digitsVal_singleton (c : Char) : digitsVal [c] = c.toNat - 48 := by
  simp [digitsVal]

lemma digitsVal_append_singleton (l : List Char) (c : Char) :
    digitsVal (l ++ [c]) = 10 * digitsVal l + (c.toNat - 48) := by
  simp [digitsVal, List.foldl_append]

lemma digitsVal_foldl_lt (l : List Char) :
    ∀ a : ℕ, (∀ c ∈ l, c.toNat ≤ 57) →
      l.foldl (fun a c => 10 * a + (c.toNat - 48)) a < (a + 1) * 10 ^ l.length := by
  induction l with
  | nil => intro a _; simp
  | cons c t ih =>
    intro a h
    have hc : c.toNat ≤ 57 := h c (by simp)
    have ht : ∀ x ∈ t, x.toNat ≤ 57 := fun x hx => h x (by simp [hx])
    have hstep := ih (10 * a + (c.toNat - 48)) ht
    have hmono : (10 * a + (c.toNat - 48) + 1) * 10 ^ t.length ≤
        ((a + 1) * 10) * 10 ^ t.length := by
      have : 10 * a + (c.toNat - 48) + 1 ≤ (a + 1) * 10 := by omega
      exact Nat.mul_le_mul_right _ this
    have hpow : (a + 1) * 10 ^ (c :: t).length = ((a + 1) * 10) * 10 ^ t.length := by
      simp [List.length_cons, pow_succ]
      ring
    rw [List.foldl_cons, hpow]
    exact lt_of_lt_of_le hstep hmono

lemma digitsVal_lt (l : List Char) (h : ∀ c ∈ l, c.toNat ≤ 57) :
    digitsVal l < 10 ^ l.length := by
  simpa [digitsVal] using digitsVal_foldl_lt l 0 h

lemma lt_ten_pow_succ (n : ℕ) : n < 10 ^ (n + 1) := by
  induction n with
  | zero => norm_num
  | succ k ih =>
    have h2 : 10 ^ (k + 2) = 10 * 10 ^ (k + 1) := by ring
    have h3 : 1 ≤ 10 ^ (k + 1) := Nat.one_le_pow _ _ (by norm_num)
    omega

lemma decimalDigits_spec : ∀ (fuel n : ℕ), n < 10 ^ (fuel + 1) →
    decimalDigits (fuel + 1) n ≠ [] ∧
    (∀ c ∈ decimalDigits (fuel + 1) n, 48 ≤ c.toNat ∧ c.toNat ≤ 57) ∧
    digitsVal (decimalDigits (fuel + 1) n) = n := by
  intro fuel
  induction fuel with
  | zero =>
    intro n hn
    have h10 : n < 10 := by simpa using hn
    refine ⟨by simp [decimalDigits, h10], ?_, ?_⟩
    · intro c hc
      simp only [decimalDigits, if_pos h10, List.mem_singleton] at hc
      subst hc
      rw [digit_toNat_ofNat h10]
      omega
    · simp [decimalDigits, if_pos h10, digitsVal_singleton, digit_toNat_ofNat h10]
  | succ fuel ih =>
    intro n hn
    by_cases h10 : n < 10
    · refine ⟨by simp [decimalDigits, h10], ?_, ?_⟩
      · intro c hc
        simp only [decimalDigits, if_pos h10, List.mem_singleton] at hc
        subst hc
        rw [digit_toNat_ofNat h10]
        omega
      · simp [decimalDigits, if_pos h10, digitsVal_singleton, digit_toNat_ofNat h10]
    · have hdiv : n / 10 < 10 ^ (fuel + 1) := by
        rw [Nat.div_lt_iff_lt_mul (by norm_num)]
        calc n < 10 ^ (fuel + 2) := hn
          _ = 10 ^ (fuel + 1) * 10 := by ring
      obtain ⟨hne, hdig, hval⟩ := ih (n / 10) hdiv
      have hmod : n % 10 < 10 := Nat.mod_lt _ (by norm_num)
      refine ⟨by simp [decimalDigits, h10], ?_, ?_⟩
      · intro c hc
        simp only [decimalDigits, if_neg h10, List.mem_append, List.mem_singleton] at hc
        rcases hc with hc | hc
        · exact hdig c hc
        · subst hc
          rw [digit_toNat_ofNat hmod]
          omega
      · have hunfold : decimalDigits (fuel + 1 + 1) n =
            decimalDigits (fuel + 1) (n / 10) ++ [Char.ofNat (48 + n % 10)] := by
          rw [show decimalDigits (fuel + 1 + 1) n =
            (if n < 10 then [Char.ofNat (48 + n)]
             else decimalDigits (fuel + 1) (n / 10) ++ [Char.ofNat (48 + n % 10)]) from rfl,
            if_neg h10]
        rw [hunfold, digitsVal_append_singleton, hval, digit_toNat_ofNat hmod]
        omega

lemma decimalRepr_spec (n : ℕ) :
    (decimalRepr n).data ≠ [] ∧
    (∀ c ∈ (decimalRepr n).data, 48 ≤ c.toNat ∧ c.toNat ≤ 57) ∧
    digitsVal (decimalRepr n).data = n :=
  decimalDigits_spec n n (lt_ten_pow_succ n)

/-! ### Parsing lemmas -/

lemma parseDecimalNat_some {l : List Char} (hne : l ≠ [])
    (hdig : ∀ c ∈ l, 48 ≤ c.toNat ∧ c.toNat ≤ 57) :
    parseDecimalNat l = some (digitsVal l) := by
  have hempty : l.isEmpty = false := by
    cases l with
    | nil => exact absurd rfl hne
    | cons c t => rfl
  have hall : l.all isDigitChar = true := by
    rw [List.all_eq_true]
    intro c hc
    have := hdig c hc
    simp only [isDigitChar, Bool.and_eq_true, decide_eq_true_eq]
    omega
  simp [parseDecimalNat, hempty, hall]

lemma parseDecimalNat_eq_some {l : List Char} {v : ℕ} (h : parseDecimalNat l = some v) :
    l ≠ [] ∧ (∀ c ∈ l, 48 ≤ c.toNat ∧ c.toNat ≤ 57) ∧ digitsVal l = v := by
  by_cases hcond : l.isEmpty || !(l.all isDigitChar)
  · simp [parseDecimalNat, hcond] at h
  · simp only [parseDecimalNat, hcond, Bool.false_eq_true, if_false] at h
    simp only [Bool.or_eq_true, Bool.not_eq_true', not_or] at hcond
    obtain ⟨hne, hall⟩ := hcond
    refine ⟨by simpa [List.isEmpty_iff] using hne, ?_, by injection h⟩
    intro c hc
    have := List.all_eq_true.mp (by simpa using hall) c hc
    simp only [isDigitChar, Bool.and_eq_true, decide_eq_true_eq] at this
    exact this

lemma Atoi_decimalRepr {n : ℕ} (h : n ≤ 9223372036854775807) :
    Atoi (decimalRepr n) = some (n : ℤ) := by
  obtain ⟨hne, hdig, hval⟩ := decimalRepr_spec n
  cases hd : (decimalRepr n).data with
  | nil => exact absurd hd hne
  | cons c rest =>
    have hc : 48 ≤ c.toNat ∧ c.toNat ≤ 57 := hdig c (by rw [hd]; simp)
    have hplus : ¬(c = '+') := by
      intro he
      rw [he] at hc
      revert hc
      decide
    have hminus : ¬(c = '-') := by
      intro he
      rw [he] at hc
      revert hc
      decide
    have hparse : parseDecimalNat (c :: rest) = some n := by
      rw [← hd, parseDecimalNat_some hne hdig, hval]
    unfold Atoi
    rw [hd]
    simp only [if_neg hplus, if_neg hminus, hparse, Option.some_bind]
    rw [if_pos h]

/-! ### TrimSpace lemmas -/

lemma dropWhile_append_of_all {p : Char → Bool} {l1 l2 : List Char}
    (h : ∀ c ∈ l1, p c = true) :
    (l1 ++ l2).dropWhile p = l2.dropWhile p := by
  induction l1 with
  | nil => simp
  | cons c t ih =>
    have hc : p c = true := h c (by simp)
    have ht : ∀ x ∈ t, p x = true := fun x hx => h x (by simp [hx])
    simp [List.dropWhile_cons, hc, ih ht]

lemma dropWhile_eq_nil_of_all {p : Char → Bool} {l : List Char}
    (h : ∀ c ∈ l, p c = true) : l.dropWhile p = [] := by
  induction l with
  | nil => rfl
  | cons c t ih =>
    have hc : p c = true := h c (by simp)
    have ht : ∀ x ∈ t, p x = true := fun x hx => h x (by simp [hx])
    simp [List.dropWhile_cons, hc, ih ht]

lemma trimData_sandwich {w1 w2 core : List Char}
    (hw1 : ∀ c ∈ w1, isGoSpace c = true) (hw2 : ∀ c ∈ w2, isGoSpace c = true)
    (hne : core ≠ []) (hcore : ∀ c ∈ core, isGoSpace c = false) :
    trimData (w1 ++ core ++ w2) = core := by
  unfold trimData
  rw [List.append_assoc, dropWhile_append_of_all hw1]
  have hleft : (core ++ w2).dropWhile isGoSpace = core ++ w2 := by
    cases core with
    | nil => exact absurd rfl hne
    | cons c t =>
      have hc : isGoSpace c = false := hcore c (by simp)
      simp [List.dropWhile_cons, hc]
  rw [hleft, List.reverse_append, dropWhile_append_of_all
    (fun c hc => hw2 c (List.mem_reverse.mp hc))]
  have hrev_ne : core.reverse ≠ [] := by
    simpa [List.reverse_eq_nil_iff] using hne
  cases hcr : core.reverse with
  | nil => exact absurd hcr hrev_ne
  | cons d r =>
    have hd : isGoSpace d = false := by
      have : d ∈ core.reverse := by rw [hcr]; simp
      exact hcore d (List.mem_reverse.mp this)
    rw [List.dropWhile_cons, hd]
    simp only [Bool.false_eq_true, if_false]
    rw [← hcr, List.reverse_reverse]

lemma trimData_of_digits {l : List Char} (hne : l ≠ [])
    (hdig : ∀ c ∈ l, 48 ≤ c.toNat ∧ c.toNat ≤ 57) : trimData l = l := by
  have h := @trimData_sandwich [] [] l (by simp) (by simp) hne
    (fun c hc => isGoSpace_eq_false_of_digit (hdig c hc).1 (hdig c hc).2)
  simpa using h

lemma trimData_all_space {l : List Char} (h : ∀ c ∈ l, isGoSpace c = true) :
    trimData l = [] := by
  unfold trimData
  rw [dropWhile_eq_nil_of_all h]
  simp

lemma trimSpace_decimalRepr (n : ℕ) : trimSpace (decimalRepr n) = decimalRepr n := by
  obtain ⟨hne, hdig, -⟩ := decimalRepr_spec n
  unfold trimSpace
  rw [trimData_of_digits hne hdig]

lemma length_dropWhile_le (p : Char → Bool) (l : List Char) :
    (l.dropWhile p).length ≤ l.length := by
  induction l with
  | nil => simp
  | cons c t ih =>
    rw [List.dropWhile_cons]
    by_cases hc : p c = true
    · simp only [hc, if_true]
      exact Nat.le_succ_of_le ih
    · simp [hc]

lemma trimData_length_le (l : List Char) : (trimData l).length ≤ l.length := by
  unfold trimData
  calc ((l.dropWhile isGoSpace).reverse.dropWhile isGoSpace).reverse.length
      = ((l.dropWhile isGoSpace).reverse.dropWhile isGoSpace).length := by
        rw [List.length_reverse]
    _ ≤ (l.dropWhile isGoSpace).reverse.length := length_dropWhile_le _ _
    _ = (l.dropWhile isGoSpace).length := by rw [List.length_reverse]
    _ ≤ l.length := length_dropWhile_le _ _

/-! ### int64 and Atoi bound lemmas -/

lemma toInt64_eq_self {z : ℤ} (h1 : -9223372036854775808 ≤ z)
    (h2 : z ≤ 9223372036854775807) : toInt64 z = z := by
  unfold toInt64
  omega

lemma Atoi_eq_nil {s : String} (hd : s.data = []) : Atoi s = none := by
  unfold Atoi
  rw [hd]

lemma Atoi_eq_cons {s : String} {c : Char} {rest : List Char} (hd : s.data = c :: rest) :
    Atoi s =
      (if c = '+' then
        (parseDecimalNat rest).bind
          (fun v => if v ≤ 9223372036854775807 then some (v : ℤ) else none)
      else if c = '-' then
        (parseDecimalNat rest).bind
          (fun v => if v ≤ 9223372036854775808 then some (-(v : ℤ)) else none)
      else
        (parseDecimalNat (c :: rest)).bind
          (fun v => if v ≤ 9223372036854775807 then some (v : ℤ) else none)) := by
  unfold Atoi
  rw [hd]

lemma Atoi_pos_lt {s : String} {v : ℤ} (h : Atoi s = some v) (hv : 0 < v) :
    v < 10 ^ s.data.length := by
  cases hd : s.data with
  | nil => rw [Atoi_eq_nil hd] at h; exact absurd h (by simp)
  | cons c rest =>
    rw [Atoi_eq_cons hd] at h
    by_cases hplus : c = '+'
    · rw [if_pos hplus] at h
      cases hp : parseDecimalNat rest with
      | none => rw [hp] at h; exact absurd h (by simp)
      | some w =>
        rw [hp] at h
        simp only [Option.some_bind] at h
        obtain ⟨-, hdig, hval⟩ := parseDecimalNat_eq_some hp
        have hw : w < 10 ^ rest.length := by
          rw [← hval]
          exact digitsVal_lt rest (fun c hc => (hdig c hc).2)
        have hvw : v = (w : ℤ) := by
          by_cases hr : w ≤ 9223372036854775807
          · rw [if_pos hr] at h; injection h with h; omega
          · rw [if_neg hr] at h; exact absurd h (by simp)
        rw [hvw]
        calc (w : ℤ) < (10 : ℤ) ^ rest.length := by exact_mod_cast hw
          _ ≤ (10 : ℤ) ^ (c :: rest).length := by
            apply pow_le_pow_right₀ (by norm_num)
            simp [List.length_cons]
    · rw [if_neg hplus] at h
      by_cases hminus : c = '-'
      · rw [if_pos hminus] at h
        cases hp : parseDecimalNat rest with
        | none => rw [hp] at h; exact absurd h (by simp)
        | some w =>
          rw [hp] at h
          simp only [Option.some_bind] at h
          by_cases hr : w ≤ 9223372036854775808
          · rw [if_pos hr] at h
            injection h with h
            omega
          · rw [if_neg hr] at h; exact absurd h (by simp)
      · rw [if_neg hminus] at h
        cases hp : parseDecimalNat (c :: rest) with
        | none => rw [hp] at h; exact absurd h (by simp)
        | some w =>
          rw [hp] at h
          simp only [Option.some_bind] at h
          obtain ⟨-, hdig, hval⟩ := parseDecimalNat_eq_some hp
          have hw : w < 10 ^ (c :: rest).length := by
            rw [← hval]
            exact digitsVal_lt _ (fun x hx => (hdig x hx).2)
          have hvw : v = (w : ℤ) := by
            by_cases hr : w ≤ 9223372036854775807
            · rw [if_pos hr] at h; injection h with h; omega
            · rw [if_neg hr] at h; exact absurd h (by simp)
          rw [hvw]
          exact_mod_cast hw

/-! ### Update branch lemmas -/

lemma Update_enter_eq {m : Model} (hstate : m.state = InputState.inputtingTime) :
    Update m Msg.keyEnter =
      (match Atoi (trimSpace m.value) with
       | Option.none =>
         ({ m with err := "Please enter a valid positive number" }, Cmd.none)
       | Option.some minutes =>
         if minutes ≤ 0 then
           ({ m with err := "Please enter a valid positive number" }, Cmd.none)
         else
           ({ m with duration := toInt64 (minutes * 60000000000),
                     timeRemaining := toInt64 (minutes * 60000000000),
                     state := InputState.running,
                     err := "" }, Cmd.none)) := by
  unfold Update
  rw [hstate]

lemma Update_enter_success {m : Model} {v : ℤ}
    (hstate : m.state = InputState.inputtingTime)
    (hatoi : Atoi (trimSpace m.value) = some v) (hv : 0 < v) :
    Update m Msg.keyEnter =
      ({ m with duration := toInt64 (v * 60000000000),
                timeRemaining := toInt64 (v * 60000000000),
                state := InputState.running,
                err := "" }, Cmd.none) := by
  have hne : ¬(v ≤ 0) := by omega
  rw [Update_enter_eq hstate]
  simp only [hatoi, if_neg hne]

lemma Update_enter_failure {m : Model}
    (hstate : m.state = InputState.inputtingTime)
    (hfail : validSubmission m.value = false) :
    Update m Msg.keyEnter =
      ({ m with err := "Please enter a valid positive number" }, Cmd.none) := by
  rw [Update_enter_eq hstate]
  cases hatoi : Atoi (trimSpace m.value) with
  | none => simp only [hatoi]
  | some v =>
    have hv : v ≤ 0 := by
      unfold validSubmission at hfail
      rw [hatoi] at hfail
      simp only [decide_eq_false_iff_not] at hfail
      omega
    simp only [hatoi, if_pos hv]

/-! ### The inductive invariant -/

/-- The inductive invariant maintained by every transition: the buffer
never exceeds the widget's `CharLimit` of 5 characters, the countdown
fields stay within range, `done` forces an exhausted countdown, and the
countdown fields are still at their zero values while awaiting input. -/
def Inv (m : Model) : Prop :=
  m.value.length ≤ 5 ∧
  0 ≤ m.timeRemaining ∧
  m.timeRemaining ≤ m.duration ∧
  (m.done = true → m.timeRemaining = 0) ∧
  (m.state = InputState.inputtingTime →
    m.duration = 0 ∧ m.timeRemaining = 0 ∧ m.done = false) ∧
  (m.state = InputState.running → 0 < m.duration)


lemma Inv_init : Inv initialModel := by
  unfold Inv
  decide

/-! ### Per-branch equations of Update -/

lemma Update_runes_input {m : Model} (hs : m.state = InputState.inputtingTime) (c : Char) :
    Update m (Msg.keyRunes c) =
      ({ m with value := textInputInsert m.value c }, Cmd.textInputCmd) := by
  unfold Update
  rw [hs]

lemma Update_runes_running {m : Model} (hs : m.state = InputState.running) (c : Char) :
    Update m (Msg.keyRunes c) = (m, Cmd.none) := by
  unfold Update
  rw [hs]

lemma Update_backspace_input {m : Model} (hs : m.state = InputState.inputtingTime) :
    Update m Msg.keyBackspace =
      ({ m with value := textInputBackspace m.value }, Cmd.textInputCmd) := by
  unfold Update
  rw [hs]

lemma Update_backspace_running {m : Model} (hs : m.state = InputState.running) :
    Update m Msg.keyBackspace = (m, Cmd.none) := by
  unfold Update
  rw [hs]

lemma Update_tick_input {m : Model} (hs : m.state = InputState.inputtingTime) :
    Update m Msg.tickMsg = (m, tickEverySecond) := by
  unfold Update
  rw [hs]

lemma Update_tick_running_zero {m : Model} (hs : m.state = InputState.running)
    (h : ¬m.timeRemaining > 0) : Update m Msg.tickMsg = (m, tickEverySecond) := by
  unfold Update
  rw [hs, if_neg h]

lemma Update_tick_running_done {m : Model} (hs : m.state = InputState.running)
    (h1 : m.timeRemaining > 0) (h2 : m.timeRemaining - 1000000000 ≤ 0) :
    Update m Msg.tickMsg =
      ({ m with timeRemaining := 0, done := true }, tickEverySecond) := by
  unfold Update
  rw [hs, if_pos h1, if_pos h2]

lemma Update_tick_running_cont {m : Model} (hs : m.state = InputState.running)
    (h1 : m.timeRemaining > 0) (h2 : ¬(m.timeRemaining - 1000000000 ≤ 0)) :
    Update m Msg.tickMsg =
      ({ m with timeRemaining := m.timeRemaining - 1000000000 }, tickEverySecond) := by
  unfold Update
  rw [hs, if_pos h1, if_neg h2]

lemma Update_enter_running {m : Model} (hs : m.state = InputState.running) :
    Update m Msg.keyEnter = (m, Cmd.none) := by
  unfold Update
  rw [hs]

/-! ### Invariant preservation -/

lemma submit_value_bound {m : Model} {v : ℤ} (hlen : m.value.length ≤ 5)
    (hatoi : Atoi (trimSpace m.value) = some v) (hv : 0 < v) : v ≤ 99999 := by
  have hlt := Atoi_pos_lt hatoi hv
  have hdatalen : (trimSpace m.value).data.length ≤ 5 := by
    have h1 : (trimSpace m.value).data = trimData m.value.data := rfl
    have h2 : m.value.data.length = m.value.length := rfl
    rw [h1]
    calc (trimData m.value.data).length ≤ m.value.data.length :=
          trimData_length_le m.value.data
      _ ≤ 5 := by rw [h2]; exact hlen
  have hpow : (10 : ℤ) ^ (trimSpace m.value).data.length ≤ 10 ^ 5 :=
    pow_le_pow_right₀ (by norm_num) hdatalen
  have : v < 10 ^ 5 := lt_of_lt_of_le hlt hpow
  omega

lemma Inv_step (m : Model) (msg : Msg) (hm : Inv m) : Inv (Update m msg).1 := by
  obtain ⟨hlen, hr0, hrd, hdone, hinput, hrun⟩ := hm
  cases msg with
  | keyCtrlC => exact ⟨hlen, hr0, hrd, hdone, hinput, hrun⟩
  | keyEsc => exact ⟨hlen, hr0, hrd, hdone, hinput, hrun⟩
  | keyRunes c =>
    cases hs : m.state with
    | inputtingTime =>
      rw [Update_runes_input hs]
      refine ⟨?_, hr0, hrd, hdone, fun _ => hinput hs,
        fun h => absurd (show m.state = InputState.running from h) (by rw [hs]; decide)⟩
      show (textInputInsert m.value c).length ≤ 5
      unfold textInputInsert
      by_cases hl : m.value.length < 5
      · rw [if_pos hl, String.length_push]
        omega
      · rw [if_neg hl]
        exact hlen
    | running =>
      rw [Update_runes_running hs]
      exact ⟨hlen, hr0, hrd, hdone, hinput, hrun⟩
  | keyBackspace =>
    cases hs : m.state with
    | inputtingTime =>
      rw [Update_backspace_input hs]
      refine ⟨?_, hr0, hrd, hdone, fun _ => hinput hs,
        fun h => absurd (show m.state = InputState.running from h) (by rw [hs]; decide)⟩
      show (textInputBackspace m.value).length ≤ 5
      unfold textInputBackspace
      have h1 : (String.mk m.value.data.dropLast).length = m.value.data.dropLast.length := rfl
      have h2 : m.value.data.length = m.value.length := rfl
      rw [h1, List.length_dropLast]
      omega
    | running =>
      rw [Update_backspace_running hs]
      exact ⟨hlen, hr0, hrd, hdone, hinput, hrun⟩
  | tickMsg =>
    cases hs : m.state with
    | inputtingTime =>
      rw [Update_tick_input hs]
      exact ⟨hlen, hr0, hrd, hdone, hinput, hrun⟩
    | running =>
      have hd : 0 < m.duration := hrun hs
      by_cases h1 : m.timeRemaining > 0
      · by_cases h2 : m.timeRemaining - 1000000000 ≤ 0
        · rw [Update_tick_running_done hs h1 h2]
          exact ⟨hlen, le_refl 0, by show (0 : ℤ) ≤ m.duration; omega, fun _ => rfl,
            fun h => absurd (show m.state = InputState.inputtingTime from h)
              (by rw [hs]; decide),
            fun _ => hd⟩
        · rw [Update_tick_running_cont hs h1 h2]
          refine ⟨hlen, by show (0 : ℤ) ≤ m.timeRemaining - 1000000000; omega,
            by show m.timeRemaining - 1000000000 ≤ m.duration; omega, ?_,
            fun h => absurd (show m.state = InputState.inputtingTime from h)
              (by rw [hs]; decide),
            fun _ => hd⟩
          intro h
          have := hdone (show m.done = true from h)
          show m.timeRemaining - 1000000000 = 0
          omega
      · rw [Update_tick_running_zero hs h1]
        exact ⟨hlen, hr0, hrd, hdone, hinput, hrun⟩
  | keyEnter =>
    cases hs : m.state with
    | running =>
      rw [Update_enter_running hs]
      exact ⟨hlen, hr0, hrd, hdone, hinput, hrun⟩
    | inputtingTime =>
      cases hatoi : Atoi (trimSpace m.value) with
      | none =>
        rw [Update_enter_failure hs (by unfold validSubmission; rw [hatoi])]
        exact ⟨hlen, hr0, hrd, hdone, fun _ => hinput hs,
          fun h => absurd (show m.state = InputState.running from h) (by rw [hs]; decide)⟩
      | some v =>
        by_cases hv : v ≤ 0
        · rw [Update_enter_failure hs
            (by unfold validSubmission; rw [hatoi]; simp; omega)]
          exact ⟨hlen, hr0, hrd, hdone, fun _ => hinput hs,
            fun h => absurd (show m.state = InputState.running from h) (by rw [hs]; decide)⟩
        · have hvpos : 0 < v := by omega
          have hbound : v ≤ 99999 := submit_value_bound hlen hatoi hvpos
          have hsame : toInt64 (v * 60000000000) = v * 60000000000 :=
            toInt64_eq_self (by omega) (by omega)
          have hdone0 : m.done = false := (hinput hs).2.2
          rw [Update_enter_success hs hatoi hvpos, hsame]
          refine ⟨hlen, by show (0 : ℤ) ≤ v * 60000000000; omega, le_refl _, ?_,
            fun h => absurd (show InputState.running = InputState.inputtingTime from h)
              (by decide),
            fun _ => by show (0 : ℤ) < v * 60000000000; omega⟩
          intro h
          exact absurd (show m.done = true from h) (by rw [hdone0]; decide)

lemma reachable_inv {m : Model} (h : Reachable m) : Inv m := by
  induction h with
  | init => exact Inv_init
  | step m msg _ ih => exact Inv_step m msg ih

/-- `totalDuration` is written by no transition other than the
`AwaitingInput → Running` submit transition. -/
lemma Update_duration_eq_or_start (m : Model) (msg : Msg) :
    (Update m msg).1.duration = m.duration ∨
      (m.state = InputState.inputtingTime ∧
        (Update m msg).1.state = InputState.running) := by
  cases msg with
  | keyCtrlC => left; rfl
  | keyEsc => left; rfl
  | keyRunes c =>
    cases hs : m.state with
    | inputtingTime => left; rw [Update_runes_input hs]
    | running => left; rw [Update_runes_running hs]
  | keyBackspace =>
    cases hs : m.state with
    | inputtingTime => left; rw [Update_backspace_input hs]
    | running => left; rw [Update_backspace_running hs]
  | tickMsg =>
    cases hs : m.state with
    | inputtingTime => left; rw [Update_tick_input hs]
    | running =>
      left
      by_cases h1 : m.timeRemaining > 0
      · by_cases h2 : m.timeRemaining - 1000000000 ≤ 0
        · rw [Update_tick_running_done hs h1 h2]
        · rw [Update_tick_running_cont hs h1 h2]
      · rw [Update_tick_running_zero hs h1]
  | keyEnter =>
    cases hs : m.state with
    | running => left; rw [Update_enter_running hs]
    | inputtingTime =>
      cases hatoi : Atoi (trimSpace m.value) with
      | none =>
        left
        rw [Update_enter_failure hs (by unfold validSubmission; rw [hatoi])]
      | some v =>
        by_cases hv : v ≤ 0
        · left
          rw [Update_enter_failure hs
            (by unfold validSubmission; rw [hatoi]; simp; omega)]
        · right
          exact ⟨rfl, by rw [Update_enter_success hs hatoi (by omega)]⟩


/-! ### Tick sequences -/

lemma tick_step_running {m : Model} (hs : m.state = InputState.running)
    (hr : 0 ≤ m.timeRemaining) :
    (Update m Msg.tickMsg).1.state = InputState.running ∧
    0 ≤ (Update m Msg.tickMsg).1.timeRemaining ∧
    (Update m Msg.tickMsg).1.timeRemaining ≤ m.timeRemaining := by
  by_cases h1 : m.timeRemaining > 0
  · by_cases h2 : m.timeRemaining - 1000000000 ≤ 0
    · rw [Update_tick_running_done hs h1 h2]
      exact ⟨hs, le_refl 0, by show (0 : ℤ) ≤ m.timeRemaining; omega⟩
    · rw [Update_tick_running_cont hs h1 h2]
      exact ⟨hs, by show (0 : ℤ) ≤ m.timeRemaining - 1000000000; omega,
        by show m.timeRemaining - 1000000000 ≤ m.timeRemaining; omega⟩
  · rw [Update_tick_running_zero hs h1]
    exact ⟨hs, hr, le_refl _⟩

lemma applyTicks_running_nonneg {m : Model} (hs : m.state = InputState.running)
    (hr : 0 ≤ m.timeRemaining) (k : ℕ) :
    (applyTicks k m).state = InputState.running ∧ 0 ≤ (applyTicks k m).timeRemaining := by
  induction k with
  | zero => exact ⟨hs, hr⟩
  | succ k ih => exact ⟨(tick_step_running ih.1 ih.2).1, (tick_step_running ih.1 ih.2).2.1⟩

lemma tick_fixed {m : Model} (hs : m.state = InputState.running)
    (h0 : m.timeRemaining = 0) : (Update m Msg.tickMsg).1 = m := by
  rw [Update_tick_running_zero hs (by omega)]

lemma applyTicks_fixed {m : Model} (hs : m.state = InputState.running)
    (h0 : m.timeRemaining = 0) (k : ℕ) : applyTicks k m = m := by
  induction k with
  | zero => rfl
  | succ k ih =>
    show (Update (applyTicks k m) Msg.tickMsg).1 = m
    rw [ih, tick_fixed hs h0]

/-! ### Evaluation of formatDuration on whole seconds -/

lemma formatDuration_seconds (s : ℕ) :
    formatDuration (s * 1000000000) =
      (if s / 3600 > 0 then
        pad2 (s / 3600) ++ ":" ++ pad2 (s % 3600 / 60) ++ ":" ++ pad2 (s % 60)
      else pad2 (s % 3600 / 60) ++ ":" ++ pad2 (s % 60)) := by
  have hmod : s * 1000000000 % 1000000000 = 0 := by omega
  have hround : roundSecond (s * 1000000000) = s * 1000000000 := by
    unfold roundSecond
    rw [hmod]
    norm_num
  have hh : s * 1000000000 / 3600000000000 = s / 3600 := by omega
  have hd1 : s * 1000000000 - s / 3600 * 3600000000000 = s % 3600 * 1000000000 := by
    omega
  have hm : s % 3600 * 1000000000 / 60000000000 = s % 3600 / 60 := by omega
  have hd2 : s % 3600 * 1000000000 - s % 3600 / 60 * 60000000000 =
      s % 60 * 1000000000 := by omega
  have hsec : s % 60 * 1000000000 / 1000000000 = s % 60 := by omega
  simp only [formatDuration, hround, hh, hd1, hm, hd2, hsec]


/-! ### Claim C1 -/

/-- Claim C1 (amended): for every positive integer `n` small enough that
`n` minutes is representable in `time.Duration` (`n ≤ 153722867`, i.e.
`n * 60·10^9 ≤ 2^63 - 1`), submitting the decimal string of `n` while
awaiting input transitions to `Running` with `totalDuration = remaining =
n` minutes and the validation error cleared.  The bound is forced by the
64-bit arithmetic of the source: see the counterexample. -/
theorem C1_theorem (n : ℕ) (hpos : 0 < n) (hbound : n ≤ 153722867) (m : Model)
    (hs : m.state = InputState.inputtingTime) (hbuf : m.value = decimalRepr n) :
    (Update m Msg.keyEnter).1.state = InputState.running ∧
    (Update m Msg.keyEnter).1.duration = (n : ℤ) * 60000000000 ∧
    (Update m Msg.keyEnter).1.timeRemaining = (n : ℤ) * 60000000000 ∧
    (Update m Msg.keyEnter).1.err = "" := by
  have hn1 : (n : ℤ) ≤ 153722867 := by exact_mod_cast hbound
  have hnpos : (0 : ℤ) < (n : ℤ) := by exact_mod_cast hpos
  have hatoi : Atoi (trimSpace m.value) = some (n : ℤ) := by
    rw [hbuf, trimSpace_decimalRepr]
    exact Atoi_decimalRepr (by omega)
  have hsame : toInt64 ((n : ℤ) * 60000000000) = (n : ℤ) * 60000000000 :=
    toInt64_eq_self (by omega) (by omega)
  rw [Update_enter_success hs hatoi hnpos]
  exact ⟨rfl, hsame, hsame, rfl⟩

/-- Witness for C1 at `n = 5`: submitting "5" starts a 5-minute run. -/
theorem C1_witness :
    (Update { value := decimalRepr 5, state := InputState.inputtingTime, duration := 0,
              timeRemaining := 0, done := false, err := "" } Msg.keyEnter).1.state =
      InputState.running ∧
    (Update { value := decimalRepr 5, state := InputState.inputtingTime, duration := 0,
              timeRemaining := 0, done := false, err := "" } Msg.keyEnter).1.duration =
      (5 : ℤ) * 60000000000 ∧
    (Update { value := decimalRepr 5, state := InputState.inputtingTime, duration := 0,
              timeRemaining := 0, done := false, err := "" } Msg.keyEnter).1.timeRemaining =
      (5 : ℤ) * 60000000000 ∧
    (Update { value := decimalRepr 5, state := InputState.inputtingTime, duration := 0,
              timeRemaining := 0, done := false, err := "" } Msg.keyEnter).1.err = "" :=
  C1_theorem 5 (by norm_num) (by norm_num) _ rfl rfl

/-- Counterexample to C1 as stated literally for every positive integer:
at `n = 2^63` the decimal string of `n` does not parse as a 64-bit `int`
(`strconv.Atoi` returns `ErrRange`), so Enter does not transition to
`Running` but reports the validation error. -/
theorem C1_counterexample :
    decimalRepr 9223372036854775808 = "9223372036854775808" ∧
    (Update { value := decimalRepr 9223372036854775808,
              state := InputState.inputtingTime, duration := 0, timeRemaining := 0,
              done := false, err := "" } Msg.keyEnter).1.state ≠ InputState.running ∧
    (Update { value := decimalRepr 9223372036854775808,
              state := InputState.inputtingTime, duration := 0, timeRemaining := 0,
              done := false, err := "" } Msg.keyEnter).1.err =
      "Please enter a valid positive number" := by
  exact ⟨by decide, by decide, by decide⟩

/-! ### Claim C2 -/

/-- Claim C2: for every non-negative whole number of seconds `s` whose
span is representable in `time.Duration` (`s * 10^9 ≤ 2^63 - 1`, i.e.
`s ≤ 9223372036`), `formatDuration` renders `MM:SS` when `s < 3600` and
`HH:MM:SS` when `s ≥ 3600`, each field zero-padded to two digits and
numerically equal to the hours/minutes/seconds decomposition of `s`. -/
theorem C2_theorem (s : ℕ) (hs : s ≤ 9223372036) :
    formatDuration (s * 1000000000) =
      (if s < 3600 then pad2 (s / 60) ++ ":" ++ pad2 (s % 60)
       else pad2 (s / 3600) ++ ":" ++ pad2 (s % 3600 / 60) ++ ":" ++ pad2 (s % 60)) := by
  rw [formatDuration_seconds]
  by_cases hlt : s < 3600
  · have h0 : s / 3600 = 0 := by omega
    have h1 : s % 3600 = s := by omega
    rw [h0, h1, if_neg (lt_irrefl 0), if_pos hlt]
  · have hgt : s / 3600 > 0 := by omega
    rw [if_pos hgt, if_neg hlt]

/-- Witness for C2 at the spec scenario `s = 5399` seconds (submit "90",
one tick): rendered as `01:29:59`. -/
theorem C2_witness : formatDuration (5399 * 1000000000) = "01:29:59" := by
  rw [C2_theorem 5399 (by norm_num)]
  decide

/-! ### Claim C3 -/

/-- Claim C3: for every input buffer that does not parse (after
whitespace trimming) as a positive 64-bit integer — including "0", "-5",
"abc" and the empty string — Enter while awaiting input leaves the phase
and the buffer unchanged and sets the validation error to exactly
"Please enter a valid positive number". -/
theorem C3_theorem :
    (validSubmission ("0") = false ∧ validSubmission ("-5") = false ∧
      validSubmission ("abc") = false ∧ validSubmission ("") = false) ∧
    ∀ (m : Model), m.state = InputState.inputtingTime →
      validSubmission m.value = false →
      (Update m Msg.keyEnter).1.state = InputState.inputtingTime ∧
      (Update m Msg.keyEnter).1.value = m.value ∧
      (Update m Msg.keyEnter).1.err = "Please enter a valid positive number" := by
  refine ⟨by decide, ?_⟩
  intro m hs hv
  rw [Update_enter_failure hs hv]
  exact ⟨hs, rfl, rfl⟩

/-- Witness for C3 at the buffer "abc". -/
theorem C3_witness :
    (Update { value := "abc", state := InputState.inputtingTime, duration := 0,
              timeRemaining := 0, done := false, err := "" } Msg.keyEnter).1.state =
      InputState.inputtingTime ∧
    (Update { value := "abc", state := InputState.inputtingTime, duration := 0,
              timeRemaining := 0, done := false, err := "" } Msg.keyEnter).1.value =
      "abc" ∧
    (Update { value := "abc", state := InputState.inputtingTime, duration := 0,
              timeRemaining := 0, done := false, err := "" } Msg.keyEnter).1.err =
      "Please enter a valid positive number" :=
  C3_theorem.2 _ rfl (by decide)


/-! ### Claim C4 -/

/-- Claim C4 (amended): `View` computes the progress fraction as
`(totalDuration - remaining) / totalDuration` with no zero-divisor guard;
on every reachable `Running` state `totalDuration` is positive, so the
unconditional division never has divisor zero during execution.  (The
guard the claim describes does not exist in the source: see the
counterexample.) -/
theorem C4_theorem (m : Model) (h : Reachable m) (hs : m.state = InputState.running) :
    0 < m.duration ∧
    percentComplete m =
      some (((m.duration - m.timeRemaining : ℤ) : ℚ) / (m.duration : ℚ)) := by
  have hd : 0 < m.duration := (reachable_inv h).2.2.2.2.2 hs
  refine ⟨hd, ?_⟩
  unfold percentComplete float64Div
  rw [if_neg (by omega)]

/-- Witness for C4 at the reachable state obtained by typing "5" and
pressing Enter. -/
theorem C4_witness :
    0 < (Update (Update initialModel (Msg.keyRunes '5')).1 Msg.keyEnter).1.duration ∧
    percentComplete (Update (Update initialModel (Msg.keyRunes '5')).1 Msg.keyEnter).1 =
      some ((((Update (Update initialModel (Msg.keyRunes '5')).1 Msg.keyEnter).1.duration -
              (Update (Update initialModel (Msg.keyRunes '5')).1 Msg.keyEnter).1.timeRemaining :
                ℤ) : ℚ) /
            ((Update (Update initialModel (Msg.keyRunes '5')).1 Msg.keyEnter).1.duration :
              ℚ)) :=
  C4_theorem _
    (Reachable.step _ Msg.keyEnter (Reachable.step _ (Msg.keyRunes '5') Reachable.init))
    (by decide)

/-- Counterexample to C4 as stated: at the state with `totalDuration = 0`
the fraction computed by the source is a division with divisor zero
(IEEE NaN, modelled `none`), not the value `0` the claim requires; there
is no guard in the code. -/
theorem C4_counterexample :
    percentComplete { value := "", state := InputState.running, duration := 0,
                      timeRemaining := 0, done := true, err := "" } = none ∧
    percentComplete { value := "", state := InputState.running, duration := 0,
                      timeRemaining := 0, done := true, err := "" } ≠ some 0 := by
  exact ⟨rfl, by decide⟩

/-! ### Claim C5 -/

/-- Claim C5 (amended): the validation error, once set, is cleared by a
subsequent successful submission — and by nothing else: a
character-input event while awaiting input leaves the validation error
exactly as it was (the source never clears `err` on text input; see the
counterexample). -/
theorem C5_theorem (m : Model) (c : Char) (hs : m.state = InputState.inputtingTime) :
    (Update m (Msg.keyRunes c)).1.err = m.err ∧
    (validSubmission m.value = true → (Update m Msg.keyEnter).1.err = "") := by
  constructor
  · rw [Update_runes_input hs]
  · intro hv
    unfold validSubmission at hv
    cases hatoi : Atoi (trimSpace m.value) with
    | none => rw [hatoi] at hv; cases hv
    | some v =>
      rw [hatoi] at hv
      have hvpos : 0 < v := of_decide_eq_true hv
      rw [Update_enter_success hs hatoi hvpos]

/-- Witness for C5: with the error set and "5" in the buffer, a typed
character preserves the error and Enter clears it. -/
theorem C5_witness :
    (Update { value := "5", state := InputState.inputtingTime, duration := 0,
              timeRemaining := 0, done := false,
              err := "Please enter a valid positive number" }
        (Msg.keyRunes '7')).1.err = "Please enter a valid positive number" ∧
    (Update { value := "5", state := InputState.inputtingTime, duration := 0,
              timeRemaining := 0, done := false,
              err := "Please enter a valid positive number" }
        Msg.keyEnter).1.err = "" := by
  have h := C5_theorem
    { value := "5", state := InputState.inputtingTime, duration := 0,
      timeRemaining := 0, done := false,
      err := "Please enter a valid positive number" } '7' rfl
  exact ⟨by rw [h.1], h.2 (by decide)⟩

/-- Counterexample to C5 as stated: in a state with a non-empty
validation error, a character-input event does not empty the error. -/
theorem C5_counterexample :
    ¬((Update { value := "abc", state := InputState.inputtingTime, duration := 0,
                timeRemaining := 0, done := false,
                err := "Please enter a valid positive number" }
        (Msg.keyRunes '5')).1.err = "") := by
  decide

/-! ### Claim C6 -/

/-- Claim C6: every state reachable from the initial model satisfies
`0 ≤ remaining ≤ totalDuration`; `completed` implies `remaining = 0`;
while awaiting input, `totalDuration` and `remaining` are zero; and no
transition changes `totalDuration` except the submit transition from
`AwaitingInput` to `Running`. -/
theorem C6_theorem (m : Model) (h : Reachable m) :
    (0 ≤ m.timeRemaining ∧ m.timeRemaining ≤ m.duration) ∧
    (m.done = true → m.timeRemaining = 0) ∧
    (m.state = InputState.inputtingTime → m.duration = 0 ∧ m.timeRemaining = 0) ∧
    (∀ msg : Msg, (Update m msg).1.duration = m.duration ∨
      (m.state = InputState.inputtingTime ∧
        (Update m msg).1.state = InputState.running)) := by
  obtain ⟨hlen, hr0, hrd, hdone, hinput, hrun⟩ := reachable_inv h
  exact ⟨⟨hr0, hrd⟩, hdone, fun hs => ⟨(hinput hs).1, (hinput hs).2.1⟩,
    fun msg => Update_duration_eq_or_start m msg⟩

/-- Witness for C6 at the initial model. -/
theorem C6_witness :
    0 ≤ initialModel.timeRemaining ∧ initialModel.timeRemaining ≤ initialModel.duration :=
  (C6_theorem initialModel Reachable.init).1

/-! ### Claim C7 -/

/-- Claim C7: from any `Running` state with non-negative remaining time
(all reachable ones, by C6), the remaining time is non-increasing from
each state to the next across any sequence of ticks, and never becomes
negative. -/
theorem C7_theorem (m : Model) (hs : m.state = InputState.running)
    (hr : 0 ≤ m.timeRemaining) (k : ℕ) :
    (applyTicks (k + 1) m).timeRemaining ≤ (applyTicks k m).timeRemaining ∧
    0 ≤ (applyTicks k m).timeRemaining := by
  obtain ⟨h1, h2⟩ := applyTicks_running_nonneg hs hr k
  exact ⟨(tick_step_running h1 h2).2.2, h2⟩

/-- Witness for C7 at a fresh one-minute run, first tick. -/
theorem C7_witness :
    (applyTicks 1
      { value := "1", state := InputState.running, duration := 60000000000,
        timeRemaining := 60000000000, done := false, err := "" }).timeRemaining ≤
      (applyTicks 0
        { value := "1", state := InputState.running, duration := 60000000000,
          timeRemaining := 60000000000, done := false, err := "" }).timeRemaining ∧
    0 ≤ (applyTicks 0
      { value := "1", state := InputState.running, duration := 60000000000,
        timeRemaining := 60000000000, done := false, err := "" }).timeRemaining :=
  C7_theorem _ rfl (by decide) 0

/-! ### Claim C8 -/

/-- Claim C8: from a `Running` state with `remaining = 0` and
`completed = true`, any number of further ticks leaves `remaining = 0`
and `completed = true` — ticks past zero are a no-op on the countdown
fields and the countdown never goes negative. -/
theorem C8_theorem (m : Model) (hs : m.state = InputState.running)
    (h0 : m.timeRemaining = 0) (hd : m.done = true) (k : ℕ) :
    (applyTicks k m).timeRemaining = 0 ∧ (applyTicks k m).done = true := by
  rw [applyTicks_fixed hs h0 k]
  exact ⟨h0, hd⟩

/-- Witness for C8 at an exhausted one-minute run, three further ticks. -/
theorem C8_witness :
    (applyTicks 3
      { value := "1", state := InputState.running, duration := 60000000000,
        timeRemaining := 0, done := true, err := "" }).timeRemaining = 0 ∧
    (applyTicks 3
      { value := "1", state := InputState.running, duration := 60000000000,
        timeRemaining := 0, done := true, err := "" }).done = true :=
  C8_theorem _ rfl rfl rfl 3

/-! ### Claim C9 -/

/-- Claim C9: handling a tick event returns, in every state — either
phase, any remaining time — the follow-up command that schedules the
next tick one second (10^9 ns) later. -/
theorem C9_theorem (m : Model) : (Update m Msg.tickMsg).2 = Cmd.tick 1000000000 := by
  cases hs : m.state with
  | inputtingTime =>
    rw [Update_tick_input hs]
    rfl
  | running =>
    by_cases h1 : m.timeRemaining > 0
    · by_cases h2 : m.timeRemaining - 1000000000 ≤ 0
      · rw [Update_tick_running_done hs h1 h2]
        rfl
      · rw [Update_tick_running_cont hs h1 h2]
        rfl
    · rw [Update_tick_running_zero hs h1]
      rfl


/-! ### Claim C10 -/

/-- Claim C10 (amended): submitted input is whitespace-trimmed before
parsing.  For every positive `n` with `n` minutes representable in
`time.Duration` (`n ≤ 153722867`; the bound is forced by 64-bit
arithmetic, see the counterexample), a buffer consisting of `n`'s decimal
string surrounded by any whitespace is accepted on Enter exactly as the
bare decimal string is, transitioning to `Running` with
`totalDuration = remaining = n` minutes and the error cleared; and a
whitespace-only buffer is a validation failure that leaves the phase and
buffer unchanged. -/
theorem C10_theorem :
    (∀ (n : ℕ), 0 < n → n ≤ 153722867 →
      ∀ (w1 w2 : String), (∀ c ∈ w1.data, isGoSpace c = true) →
        (∀ c ∈ w2.data, isGoSpace c = true) →
        ∀ (m : Model), m.state = InputState.inputtingTime →
          m.value.data = w1.data ++ (decimalRepr n).data ++ w2.data →
          (Update m Msg.keyEnter).1.state = InputState.running ∧
          (Update m Msg.keyEnter).1.duration = (n : ℤ) * 60000000000 ∧
          (Update m Msg.keyEnter).1.timeRemaining = (n : ℤ) * 60000000000 ∧
          (Update m Msg.keyEnter).1.err = "") ∧
    (∀ (w : String), (∀ c ∈ w.data, isGoSpace c = true) →
      ∀ (m : Model), m.state = InputState.inputtingTime → m.value = w →
        (Update m Msg.keyEnter).1.state = InputState.inputtingTime ∧
        (Update m Msg.keyEnter).1.value = w ∧
        (Update m Msg.keyEnter).1.err = "Please enter a valid positive number") := by
  constructor
  · intro n hpos hbound w1 w2 hw1 hw2 m hs hdata
    have hn1 : (n : ℤ) ≤ 153722867 := by exact_mod_cast hbound
    have hnpos : (0 : ℤ) < (n : ℤ) := by exact_mod_cast hpos
    obtain ⟨hne, hdig, -⟩ := decimalRepr_spec n
    have htrim : trimSpace m.value = decimalRepr n := by
      unfold trimSpace
      rw [hdata, trimData_sandwich hw1 hw2 hne
        (fun c hc => isGoSpace_eq_false_of_digit (hdig c hc).1 (hdig c hc).2)]
    have hatoi : Atoi (trimSpace m.value) = some (n : ℤ) := by
      rw [htrim]
      exact Atoi_decimalRepr (by omega)
    have hsame : toInt64 ((n : ℤ) * 60000000000) = (n : ℤ) * 60000000000 :=
      toInt64_eq_self (by omega) (by omega)
    rw [Update_enter_success hs hatoi hnpos]
    exact ⟨rfl, hsame, hsame, rfl⟩
  · intro w hw m hs hbuf
    have hfail : validSubmission m.value = false := by
      have htrim : trimSpace m.value = "" := by
        unfold trimSpace
        rw [hbuf, trimData_all_space hw]
      unfold validSubmission
      rw [htrim, Atoi_eq_nil rfl]
    rw [Update_enter_failure hs hfail]
    exact ⟨hs, hbuf, rfl⟩

/-- Witness for C10: the buffer " 5 " starts a 5-minute run, and a
buffer holding a lone space is rejected in place. -/
theorem C10_witness :
    ((Update { value := " 5 ", state := InputState.inputtingTime, duration := 0,
               timeRemaining := 0, done := false, err := "" } Msg.keyEnter).1.state =
        InputState.running ∧
      (Update { value := " 5 ", state := InputState.inputtingTime, duration := 0,
                timeRemaining := 0, done := false, err := "" } Msg.keyEnter).1.duration =
        (5 : ℤ) * 60000000000 ∧
      (Update { value := " 5 ", state := InputState.inputtingTime, duration := 0,
                timeRemaining := 0, done := false,
                err := "" } Msg.keyEnter).1.timeRemaining =
        (5 : ℤ) * 60000000000 ∧
      (Update { value := " 5 ", state := InputState.inputtingTime, duration := 0,
                timeRemaining := 0, done := false, err := "" } Msg.keyEnter).1.err = "") ∧
    ((Update { value := " ", state := InputState.inputtingTime, duration := 0,
               timeRemaining := 0, done := false, err := "" } Msg.keyEnter).1.state =
        InputState.inputtingTime ∧
      (Update { value := " ", state := InputState.inputtingTime, duration := 0,
                timeRemaining := 0, done := false, err := "" } Msg.keyEnter).1.value =
        " " ∧
      (Update { value := " ", state := InputState.inputtingTime, duration := 0,
                timeRemaining := 0, done := false, err := "" } Msg.keyEnter).1.err =
        "Please enter a valid positive number") :=
  ⟨C10_theorem.1 5 (by norm_num) (by norm_num) " " " " (by decide) (by decide) _ rfl
    (by decide),
   C10_theorem.2 " " (by decide) _ rfl rfl⟩

/-- Counterexample to C10 as stated literally for every positive integer:
at `n = 153722868` the padded buffer " 153722868 " is accepted — the
parse succeeds — but `n * time.Minute` overflows int64, so the machine
enters `Running` with a negative `totalDuration` instead of `n`
minutes. -/
theorem C10_counterexample :
    (" 153722868 " : String).data =
      (" " : String).data ++ (decimalRepr 153722868).data ++ (" " : String).data ∧
    (Update { value := " 153722868 ", state := InputState.inputtingTime, duration := 0,
              timeRemaining := 0, done := false, err := "" } Msg.keyEnter).1.state =
      InputState.running ∧
    (Update { value := " 153722868 ", state := InputState.inputtingTime, duration := 0,
              timeRemaining := 0, done := false, err := "" } Msg.keyEnter).1.duration ≠
      (153722868 : ℤ) * 60000000000 ∧
    (Update { value := " 153722868 ", state := InputState.inputtingTime, duration := 0,
              timeRemaining := 0, done := false, err := "" } Msg.keyEnter).1.duration < 0 := by
  exact ⟨by decide, by decide, by decide, by decide⟩

end ProgressTimer
